import Mathlib

/-!
Shallow embedding of the native core of the DeviceAsWebcam service
(`src/jni/Buffer.cpp`, `src/interface/jni/UVCProvider.cpp`,
`src/interface/jni/Encoder.cpp`, `src/interface/jni/SdkFrameProvider.cpp`)
together with theorems checking the natural-language specification
against the code.

Machine integers are modelled as `Nat` with explicit `% 2^w` where the
C code can overflow.  Stateful C++ methods are modelled as explicit
state-passing functions.  External effects (hardware-buffer unlock and
release, encode callbacks) are modelled as explicit action lists.
-/

namespace DeviceAsWebcam

/-! ## Buffer pool (`src/jni/Buffer.cpp`) -/

/-- The private `BufferManager::BufferState` enum. -/
inductive BufferState where
  | inUse
  | filled
  | free
deriving DecidableEq, Repr

/-- A `BufferManager::BufferItem`: one slot of the pool.  The underlying
`Buffer` object is modelled by its v4l2 index (`idx`) and its timestamp
(`Buffer::mTimestamp`, a `uint64_t`). -/
structure BufferItem where
  idx : Nat
  timestamp : Nat
  state : BufferState
deriving DecidableEq, Repr

instance : Inhabited BufferItem := ⟨⟨0, 0, BufferState.free⟩⟩

/-- The `BufferManager` state: the single consumer slot plus the vector of
producer slots (`mConsumerBufferItem`, `mProducerBufferItems`). -/
structure BufferManager where
  consumer : BufferItem
  producers : List BufferItem
deriving DecidableEq, Repr

/-- The selection loop of `BufferManager::filledProducerBufferAvailableLocked`
(Buffer.cpp lines 76-91): walk the producer items with counter `i`,
keeping `found`, `foundIndex` and the running maximal timestamp `ts`
(initially `0`); a `FILLED` item whose timestamp strictly exceeds `ts`
becomes the new candidate.  Returns the final `(found, foundIndex, ts)`. -/
def scanFilledAux : List BufferItem → Nat → Bool → Nat → Nat → Bool × Nat × Nat
  | [], _, found, foundIndex, ts => (found, foundIndex, ts)
  | item :: rest, i, found, foundIndex, ts =>
      if item.state = BufferState.filled ∧ ts < item.timestamp then
        scanFilledAux rest (i + 1) true i item.timestamp
      else
        scanFilledAux rest (i + 1) found foundIndex ts

/-- The cancellation loop of `filledProducerBufferAvailableLocked`
(Buffer.cpp lines 93-99) with its counter `j` explicit: every `FILLED`
item at an index `j ≠ foundIndex` is demoted to `FREE`. -/
def cancelOlderBuffersAux : List BufferItem → Nat → Nat → List BufferItem
  | [], _, _ => []
  | item :: rest, j, foundIndex =>
      (if item.state = BufferState.filled ∧ j ≠ foundIndex then
        { item with state := BufferState.free }
      else item) :: cancelOlderBuffersAux rest (j + 1) foundIndex

/-- The cancellation loop of `filledProducerBufferAvailableLocked`,
started at `j = 0`. -/
def cancelOlderBuffers (items : List BufferItem) (foundIndex : Nat) : List BufferItem :=
  cancelOlderBuffersAux items 0 foundIndex

/-- `BufferManager::filledProducerBufferAvailableLocked` (Buffer.cpp 70-101):
returns whether a filled buffer was found, its index, and the pool state
after the demotion pass. -/
def filledProducerBufferAvailableLocked (m : BufferManager) : Bool × Nat × BufferManager :=
  let r := scanFilledAux m.producers 0 false 0 0
  (r.1, r.2.1, { m with producers := cancelOlderBuffers m.producers r.2.1 })

/-- One non-blocking pass of `BufferManager::getFilledBufferAndSwap`
(Buffer.cpp 103-120).  When `filledProducerBufferAvailableLocked` reports a
buffer, the consumer slot is marked `FREE`, swapped with the producer slot
at the reported index, and the new consumer slot is marked `IN_USE` and
returned.  When no buffer is reported the real code waits on the condition
variable; that is modelled as `none` (the demotion pass has still run). -/
def getFilledBufferAndSwap (m : BufferManager) : Option (BufferItem × BufferManager) :=
  let r := filledProducerBufferAvailableLocked m
  if r.1 then
    let m1 := r.2.2
    let index := r.2.1
    let freedConsumer := { m1.consumer with state := BufferState.free }
    let chosen := m1.producers.getD index default
    let producers1 := m1.producers.set index freedConsumer
    let newConsumer := { chosen with state := BufferState.inUse }
    some (newConsumer, { consumer := newConsumer, producers := producers1 })
  else
    none

/-- `BufferManager::getFreeBufferIfAvailable` (Buffer.cpp 52-68): the first
`FREE` producer item is flipped to `IN_USE` and returned. -/
def getFreeBufferIfAvailable : List BufferItem → Option (BufferItem × List BufferItem)
  | [] => none
  | item :: rest =>
      if item.state = BufferState.free then
        some ({ item with state := BufferState.inUse },
              { item with state := BufferState.inUse } :: rest)
      else
        match getFreeBufferIfAvailable rest with
        | some (b, rest1) => some (b, item :: rest1)
        | none => none

/-! ## UVC control plane (`src/interface/jni/UVCProvider.cpp`) -/

/-- The constant `FRAME_INTERVAL_NUM` (UVCProvider.cpp line 48): number of
100-ns units in one second. -/
def FRAME_INTERVAL_NUM : Nat := 10000000

/-- The constant `USB_PAYLOAD_TRANSFER_SIZE` (UVCProvider.cpp line 40). -/
def USB_PAYLOAD_TRANSFER_SIZE : Nat := 3072

/-- The v4l2 fourcc `V4L2_PIX_FMT_YUYV` (bytes Y U Y V little-endian). -/
def V4L2_PIX_FMT_YUYV : Nat := 0x56595559

/-- The v4l2 fourcc `V4L2_PIX_FMT_MJPEG` (bytes M J P G little-endian). -/
def V4L2_PIX_FMT_MJPEG : Nat := 0x47504A4D

/-- UVC request code `UVC_SET_CUR` (linux/usb/video.h). -/
def UVC_SET_CUR : Nat := 0x01

/-- UVC request code `UVC_GET_CUR`. -/
def UVC_GET_CUR : Nat := 0x81

/-- UVC request code `UVC_GET_MIN`. -/
def UVC_GET_MIN : Nat := 0x82

/-- UVC request code `UVC_GET_MAX`. -/
def UVC_GET_MAX : Nat := 0x83

/-- UVC request code `UVC_GET_RES`. -/
def UVC_GET_RES : Nat := 0x84

/-- UVC request code `UVC_GET_LEN`. -/
def UVC_GET_LEN : Nat := 0x85

/-- UVC request code `UVC_GET_INFO`. -/
def UVC_GET_INFO : Nat := 0x86

/-- UVC request code `UVC_GET_DEF`. -/
def UVC_GET_DEF : Nat := 0x87

/-- UVC video-streaming control selector `UVC_VS_PROBE_CONTROL`. -/
def UVC_VS_PROBE_CONTROL : Nat := 0x01

/-- UVC video-streaming control selector `UVC_VS_COMMIT_CONTROL`. -/
def UVC_VS_COMMIT_CONTROL : Nat := 0x02

/-- USB request-type mask `USB_TYPE_MASK` (linux/usb/ch9.h). -/
def USB_TYPE_MASK : Nat := 0x60

/-- USB request type `USB_TYPE_CLASS`. -/
def USB_TYPE_CLASS : Nat := 0x20

/-- USB recipient mask `USB_RECIP_MASK`. -/
def USB_RECIP_MASK : Nat := 0x1f

/-- USB recipient `USB_RECIP_INTERFACE`. -/
def USB_RECIP_INTERFACE : Nat := 0x01

/-- A `ConfigFrame` (UVCProvider.h lines 51-56): one frame size of a format
with its list of frame intervals in 100-ns units. -/
structure ConfigFrame where
  index : Nat
  width : Nat
  height : Nat
  intervals : List Nat
deriving DecidableEq, Repr

instance : Inhabited ConfigFrame := ⟨⟨0, 0, 0, []⟩⟩

/-- A `ConfigFormat` (UVCProvider.h lines 58-62): one pixel format with its
frame sizes. -/
structure ConfigFormat where
  formatIndex : Nat
  fcc : Nat
  frames : List ConfigFrame
deriving DecidableEq, Repr

instance : Inhabited ConfigFormat := ⟨⟨0, 0, []⟩⟩

/-- A `FormatTriplet` (UVCProvider.h lines 87-94): the negotiation request.
`formatIndex` and `frameSizeIndex` are `uint8_t`, `frameInterval` is
`uint32_t`. -/
structure FormatTriplet where
  formatIndex : Nat
  frameSizeIndex : Nat
  frameInterval : Nat
deriving DecidableEq, Repr

/-- The kernel wire structure `struct uvc_streaming_control`
(linux/usb/video.h), 48 bytes packed.  Field values are the stored machine
integers. -/
structure UvcStreamingControl where
  bmHint : Nat
  bFormatIndex : Nat
  bFrameIndex : Nat
  dwFrameInterval : Nat
  wKeyFrameRate : Nat
  wPFrameRate : Nat
  wCompQuality : Nat
  wCompWindowSize : Nat
  wDelay : Nat
  dwMaxVideoFrameSize : Nat
  dwMaxPayloadTransferSize : Nat
  dwClockFrequency : Nat
  bmFramingInfo : Nat
  bPreferedVersion : Nat
  bMinVersion : Nat
  bMaxVersion : Nat
deriving DecidableEq, Repr

/-- The all-zero `uvc_streaming_control`, the result of `memset(ctrl, 0, 48)`. -/
def zeroStreamingControl : UvcStreamingControl :=
  ⟨0, 0, 0, 0, 0, 0, 0, 0, 0, 0, 0, 0, 0, 0, 0, 0⟩

instance : Inhabited UvcStreamingControl := ⟨zeroStreamingControl⟩

/-- The interval-selection loop of `setStreamingControl` (UVCProvider.cpp
lines 491-500): return the first listed interval that is `≥` the requested
one, or `none` when no such interval exists (`largerFound == false`). -/
def pickFrameInterval : List Nat → Nat → Option Nat
  | [], _ => none
  | frameInterval :: rest, reqFrameInterval =>
      if reqFrameInterval ≤ frameInterval then some frameInterval
      else pickFrameInterval rest reqFrameInterval

/-- The `uint8_t chosenFormatIndex` local of `setStreamingControl`
(UVCProvider.cpp 474-476): the request's format index clamped to the
catalogue size, with the `size_t` to `uint8_t` conversion truncating the
size modulo 256. -/
def chosenFormatIndex (formats : List ConfigFormat) (req : FormatTriplet) : Nat :=
  if req.formatIndex > formats.length then formats.length % 256 else req.formatIndex

/-- The `chosenFormat` reference of `setStreamingControl` (line 480). -/
def chosenFormat (formats : List ConfigFormat) (req : FormatTriplet) : ConfigFormat :=
  formats.getD (chosenFormatIndex formats req - 1) default

/-- The `uint8_t chosenFrameIndex` local of `setStreamingControl`
(lines 481-483). -/
def chosenFrameIndex (formats : List ConfigFormat) (req : FormatTriplet) : Nat :=
  if req.frameSizeIndex > (chosenFormat formats req).frames.length then
    (chosenFormat formats req).frames.length % 256
  else req.frameSizeIndex

/-- The `chosenFrame` reference of `setStreamingControl` (line 489). -/
def chosenFrame (formats : List ConfigFormat) (req : FormatTriplet) : ConfigFrame :=
  (chosenFormat formats req).frames.getD (chosenFrameIndex formats req - 1) default

/-- The final value of the `reqFrameInterval` local (lines 490-503): the
first listed interval `≥` the requested one, or the last listed interval
when none is. -/
def negotiatedInterval (formats : List ConfigFormat) (req : FormatTriplet) : Nat :=
  match pickFrameInterval (chosenFrame formats req).intervals req.frameInterval with
  | some v => v
  | none =>
      (chosenFrame formats req).intervals.getD
        ((chosenFrame formats req).intervals.length - 1) 0

/-- `UVCProvider::UVCDevice::setStreamingControl` (UVCProvider.cpp 471-524).
The format catalogue stands for `mUVCProperties->streaming.formats`; the
`streamingControl` argument is the prior contents of the output structure,
returned unchanged on the two early aborts.  The `uint32_t` product
`width * height * 2` is reduced modulo `2 ^ 32`. -/
def setStreamingControl (formats : List ConfigFormat)
    (streamingControl : UvcStreamingControl) (req : FormatTriplet) :
    UvcStreamingControl :=
  if chosenFormatIndex formats req = 0 then streamingControl
  else if chosenFrameIndex formats req = 0 then streamingControl
  else
    { zeroStreamingControl with
      bmHint := 1
      bmFramingInfo := 3
      bPreferedVersion := 1
      bMaxVersion := 1
      bFormatIndex := chosenFormatIndex formats req
      bFrameIndex := chosenFrameIndex formats req
      dwFrameInterval := negotiatedInterval formats req
      dwMaxPayloadTransferSize := USB_PAYLOAD_TRANSFER_SIZE
      dwMaxVideoFrameSize :=
        if (chosenFormat formats req).fcc = V4L2_PIX_FMT_YUYV ∨
            (chosenFormat formats req).fcc = V4L2_PIX_FMT_MJPEG
        then (chosenFrame formats req).width * (chosenFrame formats req).height * 2 % 2 ^ 32
        else 0 }

/-- Little-endian byte serialization of a 16-bit field. -/
def le16 (v : Nat) : List Nat := [v % 256, v / 256 % 256]

/-- Little-endian byte serialization of a 32-bit field. -/
def le32 (v : Nat) : List Nat :=
  [v % 256, v / 256 % 256, v / 65536 % 256, v / 16777216 % 256]

/-- The 48-byte wire image of a `uvc_streaming_control`, per the packed
layout of linux/usb/video.h. -/
def serializeStreamingControl (c : UvcStreamingControl) : List Nat :=
  le16 c.bmHint ++ [c.bFormatIndex % 256, c.bFrameIndex % 256] ++
  le32 c.dwFrameInterval ++ le16 c.wKeyFrameRate ++ le16 c.wPFrameRate ++
  le16 c.wCompQuality ++ le16 c.wCompWindowSize ++ le16 c.wDelay ++
  le32 c.dwMaxVideoFrameSize ++ le32 c.dwMaxPayloadTransferSize ++
  le32 c.dwClockFrequency ++
  [c.bmFramingInfo % 256, c.bPreferedVersion % 256, c.bMinVersion % 256,
   c.bMaxVersion % 256]

/-- Read a little-endian 16-bit field at byte offset `o`. -/
def rd16 (d : List Nat) (o : Nat) : Nat := d.getD o 0 + 256 * d.getD (o + 1) 0

/-- Read a little-endian 32-bit field at byte offset `o`. -/
def rd32 (d : List Nat) (o : Nat) : Nat :=
  d.getD o 0 + 256 * d.getD (o + 1) 0 + 65536 * d.getD (o + 2) 0 +
  16777216 * d.getD (o + 3) 0

/-- Reinterpretation of a byte buffer as a `uvc_streaming_control`
(the `reinterpret_cast` on `response->data`). -/
def deserializeStreamingControl (d : List Nat) : UvcStreamingControl :=
  { bmHint := rd16 d 0
    bFormatIndex := d.getD 2 0
    bFrameIndex := d.getD 3 0
    dwFrameInterval := rd32 d 4
    wKeyFrameRate := rd16 d 8
    wPFrameRate := rd16 d 10
    wCompQuality := rd16 d 12
    wCompWindowSize := rd16 d 14
    wDelay := rd16 d 16
    dwMaxVideoFrameSize := rd32 d 18
    dwMaxPayloadTransferSize := rd32 d 22
    dwClockFrequency := rd32 d 26
    bmFramingInfo := d.getD 30 0
    bPreferedVersion := d.getD 31 0
    bMinVersion := d.getD 32 0
    bMaxVersion := d.getD 33 0 }

/-- The kernel structure `struct uvc_request_data` (linux/usb/g_uvc.h):
a length and 60 data bytes. -/
structure UvcRequestData where
  length : Nat
  data : List Nat
deriving DecidableEq, Repr

/-- The value-initialized `uvc_request_data` built in
`UVCProvider::processUVCEvent` (`struct uvc_request_data uvcResponse {};`). -/
def zeroUvcRequestData : UvcRequestData :=
  { length := 0, data := List.replicate 60 0 }

/-- Overwrite the first 48 data bytes by the wire image of a streaming
control (a `memcpy`/field write through the `reinterpret_cast` pointer). -/
def writeCtrl (d : List Nat) (c : UvcStreamingControl) : List Nat :=
  serializeStreamingControl c ++ d.drop 48

/-- The kernel structure `struct usb_ctrlrequest`. -/
structure UsbCtrlRequest where
  bRequestType : Nat
  bRequest : Nat
  wValue : Nat
  wIndex : Nat
  wLength : Nat
deriving DecidableEq, Repr

/-- The state of a `UVCProvider::UVCDevice` that the setup handlers touch:
the parsed format catalogue and interface numbers (`mUVCProperties`), the
probe and commit controls, and the latched control selector
(`mCurrentControlState`). -/
structure UVCDeviceState where
  formats : List ConfigFormat
  controlInterfaceNumber : Nat
  streamingInterfaceNumber : Nat
  probe : UvcStreamingControl
  commit : UvcStreamingControl
  currentControlState : Nat
deriving DecidableEq, Repr

/-- The `maxFormatTriplet` built in `processSetupStreamingEvent`
(UVCProvider.cpp 387-389): `(UINT8_MAX, UINT8_MAX, UINT32_MAX)`. -/
def maxFormatTriplet : FormatTriplet := ⟨255, 255, 4294967295⟩

/-- The `defaultFormatTriplet` of `processSetupStreamingEvent`
(UVCProvider.cpp 390-391): `(1, 1, 0)`. -/
def defaultFormatTriplet : FormatTriplet := ⟨1, 1, 0⟩

/-- `UVCProvider::UVCDevice::processSetupStreamingEvent` (UVCProvider.cpp
375-431): dispatch on the request code, producing the updated device state
and the response.  `controlSelect` is `wValue >> 8`; invalid selectors
leave the response untouched.  The handled cases write through the
`uvc_streaming_control` pointer aliasing `response->data`. -/
def processSetupStreamingEvent (dev : UVCDeviceState) (request : UsbCtrlRequest)
    (response : UvcRequestData) : UVCDeviceState × UvcRequestData :=
  let requestType := request.bRequest
  let controlSelect := request.wValue / 256
  if ¬ (controlSelect = UVC_VS_PROBE_CONTROL ∨ controlSelect = UVC_VS_COMMIT_CONTROL) then
    (dev, response)
  else
    let response1 : UvcRequestData := { response with length := 48 }
    if requestType = UVC_SET_CUR then
      ({ dev with currentControlState := controlSelect },
       { response1 with length := 48 })
    else if requestType = UVC_GET_CUR then
      (dev, { response1 with
              data := writeCtrl response1.data
                (if controlSelect = UVC_VS_PROBE_CONTROL then dev.probe else dev.commit) })
    else if requestType = UVC_GET_MAX then
      (dev, { response1 with
              data := writeCtrl response1.data
                (setStreamingControl dev.formats
                  (deserializeStreamingControl response1.data) maxFormatTriplet) })
    else if requestType = UVC_GET_MIN ∨ requestType = UVC_GET_DEF then
      (dev, { response1 with
              data := writeCtrl response1.data
                (setStreamingControl dev.formats
                  (deserializeStreamingControl response1.data) defaultFormatTriplet) })
    else if requestType = UVC_GET_RES then
      (dev, { response1 with data := List.replicate 48 0 ++ response1.data.drop 48 })
    else if requestType = UVC_GET_LEN then
      (dev, { response1 with
              data := (response1.data.set 0 0x00).set 0 0x30, length := 2 })
    else if requestType = UVC_GET_INFO then
      (dev, { response1 with data := response1.data.set 0 0x3, length := 1 })
    else
      (dev, response1)

/-- `UVCProvider::UVCDevice::processSetupControlEvent` (UVCProvider.cpp
368-373): stub reply `data[0] = 0x3` of length `wLength`. -/
def processSetupControlEvent (request : UsbCtrlRequest) (response : UvcRequestData) :
    UvcRequestData :=
  { response with data := response.data.set 0 0x3, length := request.wLength }

/-- `UVCProvider::UVCDevice::processSetupClassEvent` (UVCProvider.cpp
433-448): check the recipient is an interface, then route by the low byte
of `wIndex` to the control or the streaming handler. -/
def processSetupClassEvent (dev : UVCDeviceState) (request : UsbCtrlRequest)
    (response : UvcRequestData) : UVCDeviceState × UvcRequestData :=
  let intf := request.wIndex % 256
  if Nat.land request.bRequestType USB_RECIP_MASK ≠ USB_RECIP_INTERFACE then
    (dev, response)
  else if intf = dev.controlInterfaceNumber then
    (dev, processSetupControlEvent request response)
  else if intf = dev.streamingInterfaceNumber then
    processSetupStreamingEvent dev request response
  else
    (dev, response)

/-- `UVCProvider::UVCDevice::processSetupEvent` (UVCProvider.cpp 450-469):
only class-typed requests are handled. -/
def processSetupEvent (dev : UVCDeviceState) (request : UsbCtrlRequest)
    (response : UvcRequestData) : UVCDeviceState × UvcRequestData :=
  if Nat.land request.bRequestType USB_TYPE_MASK = USB_TYPE_CLASS then
    processSetupClassEvent dev request response
  else
    (dev, response)

/-- The `UVC_EVENT_SETUP` branch of `UVCProvider::processUVCEvent`
(UVCProvider.cpp 785-828): the response is value-initialized to zero,
`processSetupEvent` runs, and the resulting response is handed to the
`UVCIOC_SEND_RESPONSE` ioctl. -/
def processUVCEventSetup (dev : UVCDeviceState) (request : UsbCtrlRequest) :
    UVCDeviceState × UvcRequestData :=
  processSetupEvent dev request zeroUvcRequestData

/-- One enumerated `v4l2_frmivalenum` result, as far as
`getFrameIntervals` inspects it: the union member selected by `type`. -/
inductive FrmIvalDesc where
  | discrete (numerator denominator : Nat)
  | stepwise (minNumerator minDenominator : Nat)
  | other
deriving DecidableEq, Repr

/-- The interval computation of `UVCProvider::UVCDevice::getFrameIntervals`
(UVCProvider.cpp 215-228).  For a discrete interval the `uint32_t` product
`numerator * FRAME_INTERVAL_NUM` wraps modulo `2 ^ 32` before the division;
for a stepwise interval the code divides the minimum fraction directly;
unknown types leave `ival` at 0. -/
def intervalFromDesc : FrmIvalDesc → Nat
  | FrmIvalDesc.discrete n d => n * FRAME_INTERVAL_NUM % 2 ^ 32 / d
  | FrmIvalDesc.stepwise n d => n / d
  | FrmIvalDesc.other => 0

/-- The enumeration loop of `getFrameIntervals` (UVCProvider.cpp 199-232):
each enumerated descriptor appends its computed interval to the frame. -/
def getFrameIntervals (descs : List FrmIvalDesc) : List Nat :=
  descs.map intervalFromDesc

/-! ## Encoder (`src/interface/jni/Encoder.cpp`) and frame ingress
(`src/interface/jni/SdkFrameProvider.cpp`) -/

/-- The `Status` enum of Utils.h. -/
inductive Status where
  | ok
  | error
deriving DecidableEq, Repr

/-- A `CameraConfig`: the committed stream configuration. -/
structure CameraConfig where
  width : Nat
  height : Nat
  fcc : Nat
  fps : Nat
deriving DecidableEq, Repr

/-- The sizes and row strides of the intermediate I420 scratch planes. -/
structure I420Planes where
  ySize : Nat
  uSize : Nat
  vSize : Nat
  yRowStride : Nat
  uRowStride : Nat
  vRowStride : Nat
deriving DecidableEq, Repr

/-- The allocations and stride assignments of `Encoder::Encoder`
(Encoder.cpp 33-53): `y` of `width * height` bytes, `u` and `v` of
`width * height / 2` bytes each, with row strides `width` and `width / 2`.
All expressions are `uint32_t` arithmetic, so products wrap modulo
`2 ^ 32` before the division. -/
def encoderInitI420 (config : CameraConfig) : I420Planes :=
  { ySize := config.width * config.height % 2 ^ 32
    uSize := config.width * config.height % 2 ^ 32 / 2
    vSize := config.width * config.height % 2 ^ 32 / 2
    yRowStride := config.width
    uRowStride := config.width / 2
    vRowStride := config.width / 2 }

/-- A `YuvHardwareBufferDesc` (Buffer.h 38-52); plane base pointers are
modelled as numeric addresses. -/
structure YuvHardwareBufferDesc where
  yData : Nat
  yDataLength : Nat
  yRowStride : Nat
  uData : Nat
  uDataLength : Nat
  uRowStride : Nat
  vData : Nat
  vDataLength : Nat
  vRowStride : Nat
  uvPixelStride : Nat
deriving DecidableEq, Repr

/-- An `ARGBHardwareBufferDesc` (Buffer.h 54-57). -/
structure ARGBHardwareBufferDesc where
  buf : Nat
  rowStride : Nat
deriving DecidableEq, Repr

/-- The `std::variant` member of `HardwareBufferDesc`. -/
inductive PlaneDesc where
  | argb (d : ARGBHardwareBufferDesc)
  | yuv (d : YuvHardwareBufferDesc)
deriving DecidableEq, Repr

/-- A `HardwareBufferDesc` (Buffer.h 59-65). -/
structure HardwareBufferDesc where
  width : Nat
  height : Nat
  format : Nat
  bufferId : Nat
  bufferDesc : PlaneDesc
deriving DecidableEq, Repr

/-- An `EncodeRequest` as used by the interface-side Encoder and
SdkFrameProvider: the source hardware-buffer descriptor, the destination
producer buffer, and the rotation in degrees. -/
structure EncodeRequest where
  srcBuffer : HardwareBufferDesc
  dstBuffer : BufferItem
  rotationDegrees : Nat
deriving DecidableEq, Repr

/-- The hardware-buffer side effects of `SdkFrameProvider::releaseHardwareBuffer`. -/
inductive HwBufferAction where
  | unlock (handle : Nat)
  | release (handle : Nat)
deriving DecidableEq, Repr

/-- `SdkFrameProvider::releaseHardwareBuffer` (SdkFrameProvider.cpp
161-175): look the buffer id up in `mBufferIdToAHardwareBuffer`
(modelled as an association list from id to hardware-buffer handle);
when found, unlock and release the handle and erase the entry; when
absent, do nothing beyond logging. -/
def releaseHardwareBuffer (idMap : List (Nat × Nat)) (desc : HardwareBufferDesc) :
    List (Nat × Nat) × List HwBufferAction :=
  match idMap.lookup desc.bufferId with
  | none => (idMap, [])
  | some h =>
      (idMap.eraseP (fun p => p.1 = desc.bufferId),
       [HwBufferAction.unlock h, HwBufferAction.release h])

/-- The state touched by `SdkFrameProvider::encodeImage(desc, ...)`: the
producer slots of the buffer pool, the id-to-handle map, and the
encoder's request queue. -/
structure SdkFrameProviderState where
  producers : List BufferItem
  bufferIdToAHardwareBuffer : List (Nat × Nat)
  requestQueue : List EncodeRequest
deriving DecidableEq, Repr

/-- `SdkFrameProvider::encodeImage(HardwareBufferDesc, jlong, jint)`
(SdkFrameProvider.cpp 128-142).  When no free producer buffer is
available the hardware buffer is released and `ERROR` returned; otherwise
the acquired buffer is stamped with the timestamp (a write through the
shared `Buffer` object, visible in the pool slot of the same v4l2 index)
and an `EncodeRequest` is enqueued.  The emitted hardware-buffer actions
are returned alongside. -/
def encodeImage (st : SdkFrameProviderState) (desc : HardwareBufferDesc)
    (timestamp : Nat) (rotation : Nat) :
    Status × SdkFrameProviderState × List HwBufferAction :=
  match getFreeBufferIfAvailable st.producers with
  | none =>
      let r := releaseHardwareBuffer st.bufferIdToAHardwareBuffer desc
      (Status.error, { st with bufferIdToAHardwareBuffer := r.1 }, r.2)
  | some (producerBuffer, producers1) =>
      let producerBuffer1 := { producerBuffer with timestamp := timestamp }
      let producers2 := producers1.map fun it =>
        if it.idx = producerBuffer.idx then { it with timestamp := timestamp } else it
      let encodeRequest : EncodeRequest := ⟨desc, producerBuffer1, rotation⟩
      (Status.ok,
       { st with producers := producers2,
                 requestQueue := st.requestQueue ++ [encodeRequest] },
       [])

/-- One scheduling window of the encode worker's environment: other
threads hold `mRequestLock` only while the worker is waiting on the
condition variable or running `encode` outside the lock.  During such a
window `queueRequest` may append requests, the destructor may clear
`mContinueEncoding`, and a running `encode` completes with the given
outcome. -/
structure EnvStep where
  enqueued : List EncodeRequest
  stop : Bool
  encodeOk : Bool
deriving DecidableEq, Repr

/-- How a modelled run of `Encoder::encodeThreadLoop` ends. -/
inductive LoopExit where
  | drained
  | innerReturn
  | running
deriving DecidableEq, Repr

/-- `Encoder::encodeThreadLoop` (Encoder.cpp 66-94) over an explicit
environment schedule.  With `mContinueEncoding` observed false at the top
of the outer `while`, the drain loop reports every still-queued request
with a failure callback (`drained`).  While the queue is empty the worker
waits on `mRequestCondition`; one `EnvStep` is consumed per wait, and if
the flag was cleared during the wait the code returns immediately,
without draining (`innerReturn`).  Otherwise the front request is popped
and encoded outside the lock (consuming one window; `encode` reports its
outcome through `onEncoded`).  When the schedule is exhausted the thread
is still parked or looping (`running`).  The result is the callback list,
the final queue contents, and the exit kind. -/
def encodeThreadLoop (sched : List EnvStep) (cont : Bool)
    (queue : List EncodeRequest) (callbacks : List (EncodeRequest × Bool)) :
    List (EncodeRequest × Bool) × List EncodeRequest × LoopExit :=
  if ¬ cont then
    (callbacks ++ queue.map (fun r => (r, false)), [], LoopExit.drained)
  else
    match sched with
    | [] => (callbacks, queue, LoopExit.running)
    | e :: rest =>
        match queue with
        | [] =>
            let queue1 := e.enqueued
            if e.stop then (callbacks, queue1, LoopExit.innerReturn)
            else encodeThreadLoop rest true queue1 callbacks
        | request :: queueRest =>
            encodeThreadLoop rest (!e.stop) (queueRest ++ e.enqueued)
              (callbacks ++ [(request, e.encodeOk)])

/-! ## List helper lemmas -/

theorem getD_set_ne {α : Type} [Inhabited α] :
    ∀ (l : List α) (i j : Nat) (a : α), i ≠ j →
      (l.set i a).getD j default = l.getD j default
  | [], _, _, _, _ => rfl
  | _ :: _, 0, 0, _, h => absurd rfl h
  | _ :: _, 0, _ + 1, _, _ => rfl
  | _ :: _, _ + 1, 0, _, _ => rfl
  | _ :: t, i + 1, j + 1, a, h =>
      getD_set_ne t i j a (fun hh => h (by rw [hh]))

theorem getD_set_self {α : Type} [Inhabited α] :
    ∀ (l : List α) (i : Nat) (a : α), i < l.length →
      (l.set i a).getD i default = a
  | [], _, _, h => absurd h (by simp)
  | _ :: _, 0, _, _ => rfl
  | _ :: t, i + 1, a, h => getD_set_self t i a (Nat.lt_of_succ_lt_succ h)

theorem getD_mem {α : Type} (d : α) :
    ∀ (l : List α) (i : Nat), i < l.length → l.getD i d ∈ l
  | [], _, h => absurd h (by simp)
  | a :: _, 0, _ => List.mem_cons_self a _
  | _ :: t, i + 1, h =>
      List.mem_cons_of_mem _ (getD_mem d t i (Nat.lt_of_succ_lt_succ h))

/-! ## Lemmas about the interval-selection loop -/

theorem pickFrameInterval_some_le :
    ∀ {l : List Nat} {req v : Nat}, pickFrameInterval l req = some v → req ≤ v := by
  intro l
  induction l with
  | nil => intro req v h; simp [pickFrameInterval] at h
  | cons a t ih =>
      intro req v h
      by_cases hc : req ≤ a
      · simp [pickFrameInterval, hc] at h
        omega
      · simp [pickFrameInterval, hc] at h
        exact ih h

theorem pickFrameInterval_some_mem :
    ∀ {l : List Nat} {req v : Nat}, pickFrameInterval l req = some v → v ∈ l := by
  intro l
  induction l with
  | nil => intro req v h; simp [pickFrameInterval] at h
  | cons a t ih =>
      intro req v h
      by_cases hc : req ≤ a
      · simp [pickFrameInterval, hc] at h
        simp [h]
      · simp [pickFrameInterval, hc] at h
        exact List.mem_cons_of_mem a (ih h)

theorem pickFrameInterval_none :
    ∀ {l : List Nat} {req : Nat}, pickFrameInterval l req = none ↔ ∀ iv ∈ l, iv < req := by
  intro l
  induction l with
  | nil => intro req; simp [pickFrameInterval]
  | cons a t ih =>
      intro req
      by_cases hc : req ≤ a
      · simp [pickFrameInterval, hc]
      · simp [pickFrameInterval, hc, ih]
        intro _
        omega

theorem pickFrameInterval_first :
    ∀ {l : List Nat} {req v : Nat}, pickFrameInterval l req = some v →
      ∃ k, k < l.length ∧ l.getD k 0 = v ∧ ∀ j, j < k → l.getD j 0 < req := by
  intro l
  induction l with
  | nil => intro req v h; simp [pickFrameInterval] at h
  | cons a t ih =>
      intro req v h
      by_cases hc : req ≤ a
      · simp [pickFrameInterval, hc] at h
        exact ⟨0, by simp, by simpa using h, by omega⟩
      · simp [pickFrameInterval, hc] at h
        obtain ⟨k, hk, hv, hbelow⟩ := ih h
        refine ⟨k + 1, by simpa using hk, by simpa using hv, ?_⟩
        intro j hj
        match j with
        | 0 => simpa using Nat.lt_of_not_le hc
        | j + 1 => simpa using hbelow j (Nat.lt_of_succ_lt_succ hj)

theorem pickFrameInterval_mem_sorted :
    ∀ {l : List Nat} {req : Nat}, l.Pairwise (· ≤ ·) → req ∈ l →
      pickFrameInterval l req = some req := by
  intro l
  induction l with
  | nil => intro req _ hm; simp at hm
  | cons a t ih =>
      intro req hp hm
      rcases List.pairwise_cons.mp hp with ⟨hall, ht⟩
      by_cases hc : req ≤ a
      · have : a = req := by
          rcases List.mem_cons.mp hm with h | h
          · omega
          · have := hall req h
            omega
        simp [pickFrameInterval, hc, this]
      · have hmt : req ∈ t := by
          rcases List.mem_cons.mp hm with h | h
          · omega
          · exact h
        simp [pickFrameInterval, hc]
        exact ih ht hmt

theorem pickFrameInterval_fix :
    ∀ {l : List Nat} {req v : Nat}, pickFrameInterval l req = some v →
      pickFrameInterval l v = some v := by
  intro l
  induction l with
  | nil => intro req v h; simp [pickFrameInterval] at h
  | cons a t ih =>
      intro req v h
      by_cases hc : req ≤ a
      · simp [pickFrameInterval, hc] at h
        simp [pickFrameInterval, h]
      · simp [pickFrameInterval, hc] at h
        have hv := pickFrameInterval_some_le h
        have : ¬ v ≤ a := by omega
        simp [pickFrameInterval, this]
        exact ih h

theorem pairwise_le_getD_last :
    ∀ {l : List Nat}, l.Pairwise (· ≤ ·) → ∀ iv ∈ l, iv ≤ l.getD (l.length - 1) 0 := by
  intro l
  induction l with
  | nil => intro _ iv hm; simp at hm
  | cons a t ih =>
      intro hp iv hm
      rcases List.pairwise_cons.mp hp with ⟨hall, ht⟩
      match t, hm with
      | [], hm => simp at hm; simp [hm]
      | b :: t1, hm =>
          have hlast : (a :: b :: t1).getD ((a :: b :: t1).length - 1) 0 =
              (b :: t1).getD ((b :: t1).length - 1) 0 := by
            simp [List.getD]
          rw [hlast]
          rcases List.mem_cons.mp hm with h | h
          · subst h
            exact hall _ (getD_mem 0 (b :: t1) ((b :: t1).length - 1) (by simp))
          · exact ih ht iv h

/-! ## Claim theorems -/

/-- C5: the specification claims every enumerated frame interval is stored
in 100-ns units, with discrete intervals computed in exact integer
arithmetic.  The code disagrees: a stepwise minimum of 1/30 s is stored as
`1 / 30 = 0` (whole seconds, not 100-ns units, where the 100-ns value is
`333333`), and a discrete interval `430/1` wraps the 32-bit product to
`5032704` instead of the exact `4300000000`. -/
theorem c5_interval_units_failing_inputs :
    getFrameIntervals [FrmIvalDesc.stepwise 1 30] = [0] ∧
    1 * 10000000 / 30 = 333333 ∧
    getFrameIntervals [FrmIvalDesc.discrete 430 1] = [5032704] ∧
    430 * 10000000 / 1 = 4300000000 := by decide

/-- C6 counterexample: the claim says the U plane holds `(W/2) × (H/2)`
bytes; at `W = H = 4` the constructor allocates `4 * 4 / 2 = 8` bytes,
not `(4/2) * (4/2) = 4`. -/
theorem c6_counterexample :
    (encoderInitI420 ⟨4, 4, 0x47504A4D, 30⟩).uSize ≠ 4 / 2 * (4 / 2) := by decide

/-- C6 (amended): for a session of width `W` and height `H` (with `W * H`
below `2 ^ 32`), the Encoder constructor sizes the Y scratch plane at
`W * H` bytes and the U and V scratch planes at `W * H / 2` bytes each,
with row strides `W` for Y and `W / 2` for U and V. -/
theorem c6_i420_plane_sizes (config : CameraConfig)
    (h : config.width * config.height < 2 ^ 32) :
    (encoderInitI420 config).ySize = config.width * config.height ∧
    (encoderInitI420 config).uSize = config.width * config.height / 2 ∧
    (encoderInitI420 config).vSize = config.width * config.height / 2 ∧
    (encoderInitI420 config).yRowStride = config.width ∧
    (encoderInitI420 config).uRowStride = config.width / 2 ∧
    (encoderInitI420 config).vRowStride = config.width / 2 := by
  have hm : config.width * config.height % 2 ^ 32 = config.width * config.height :=
    Nat.mod_eq_of_lt h
  unfold encoderInitI420
  rw [hm]
  exact ⟨rfl, rfl, rfl, rfl, rfl, rfl⟩

/-- C6 witness: the amended statement at a concrete 640 × 480 session. -/
theorem c6_i420_plane_sizes_witness :
    640 * 480 < 2 ^ 32 ∧
    ((encoderInitI420 ⟨640, 480, 0x47504A4D, 30⟩).ySize = 640 * 480 ∧
     (encoderInitI420 ⟨640, 480, 0x47504A4D, 30⟩).uSize = 640 * 480 / 2 ∧
     (encoderInitI420 ⟨640, 480, 0x47504A4D, 30⟩).vSize = 640 * 480 / 2 ∧
     (encoderInitI420 ⟨640, 480, 0x47504A4D, 30⟩).yRowStride = 640 ∧
     (encoderInitI420 ⟨640, 480, 0x47504A4D, 30⟩).uRowStride = 640 / 2 ∧
     (encoderInitI420 ⟨640, 480, 0x47504A4D, 30⟩).vRowStride = 640 / 2) :=
  ⟨by decide, c6_i420_plane_sizes ⟨640, 480, 0x47504A4D, 30⟩ (by decide)⟩

/-- A concrete encode request used to exhibit the shutdown drain gap. -/
def c7Request : EncodeRequest :=
  ⟨⟨640, 480, 0, 0, PlaneDesc.argb ⟨0, 0⟩⟩, default, 0⟩

/-- C7: the claim says the encode thread never exits leaving a queued
request without a failure callback.  The inner wait loop violates this:
when a request is enqueued during a `wait_for` window and
`mContinueEncoding` is cleared in the same window, the worker returns from
inside the wait loop with the request still queued and no callback issued
(first conjunct).  The drain that the claim describes runs only when the
flag is observed false at the top of the outer loop (second conjunct). -/
theorem c7_shutdown_drain_gap :
    encodeThreadLoop [⟨[c7Request], true, true⟩] true [] [] =
      ([], [c7Request], LoopExit.innerReturn) ∧
    encodeThreadLoop [⟨[], true, true⟩] true [c7Request, c7Request] [] =
      ([(c7Request, true), (c7Request, false)], [], LoopExit.drained) := by
  constructor <;> rfl

/-- C9: after a GET_LEN streaming setup event, the response handed to the
`UVCIOC_SEND_RESPONSE` ioctl has length 2 and its first two data bytes are
`0x30` and `0x00` (the little-endian 16-bit value `0x0030`); the second
byte is zero because the response structure is value-initialized in
`processUVCEvent`. -/
theorem c9_get_len_response (dev : UVCDeviceState) (request : UsbCtrlRequest)
    (htype : Nat.land request.bRequestType USB_TYPE_MASK = USB_TYPE_CLASS)
    (hrecip : Nat.land request.bRequestType USB_RECIP_MASK = USB_RECIP_INTERFACE)
    (hnotctl : request.wIndex % 256 ≠ dev.controlInterfaceNumber)
    (hintf : request.wIndex % 256 = dev.streamingInterfaceNumber)
    (hreq : request.bRequest = UVC_GET_LEN)
    (hsel : request.wValue / 256 = UVC_VS_PROBE_CONTROL ∨
            request.wValue / 256 = UVC_VS_COMMIT_CONTROL) :
    (processUVCEventSetup dev request).2.length = 2 ∧
    (processUVCEventSetup dev request).2.data.getD 0 0 = 0x30 ∧
    (processUVCEventSetup dev request).2.data.getD 1 0 = 0x00 := by
  have hne : dev.streamingInterfaceNumber ≠ dev.controlInterfaceNumber := by
    rw [← hintf]; exact hnotctl
  rcases hsel with h | h <;>
    simp [processUVCEventSetup, processSetupEvent, processSetupClassEvent,
      processSetupStreamingEvent, htype, hrecip, hnotctl, hintf, hne, hreq, h,
      UVC_GET_LEN, UVC_SET_CUR, UVC_GET_CUR, UVC_GET_MAX, UVC_GET_MIN,
      UVC_GET_DEF, UVC_GET_RES, UVC_VS_PROBE_CONTROL, UVC_VS_COMMIT_CONTROL,
      zeroUvcRequestData, List.getD]

/-- C9 witness: a concrete class-typed, interface-recipient GET_LEN
request on the streaming interface. -/
theorem c9_get_len_response_witness :
    (Nat.land 0x21 USB_TYPE_MASK = USB_TYPE_CLASS ∧
     Nat.land 0x21 USB_RECIP_MASK = USB_RECIP_INTERFACE ∧
     (1 : Nat) % 256 ≠ 0 ∧
     (1 : Nat) % 256 = 1 ∧
     (0x85 : Nat) = UVC_GET_LEN ∧
     (0x0100 : Nat) / 256 = UVC_VS_PROBE_CONTROL) ∧
    ((processUVCEventSetup ⟨[], 0, 1, zeroStreamingControl, zeroStreamingControl, 0⟩
        ⟨0x21, 0x85, 0x0100, 1, 0⟩).2.length = 2 ∧
     (processUVCEventSetup ⟨[], 0, 1, zeroStreamingControl, zeroStreamingControl, 0⟩
        ⟨0x21, 0x85, 0x0100, 1, 0⟩).2.data.getD 0 0 = 0x30 ∧
     (processUVCEventSetup ⟨[], 0, 1, zeroStreamingControl, zeroStreamingControl, 0⟩
        ⟨0x21, 0x85, 0x0100, 1, 0⟩).2.data.getD 1 0 = 0x00) :=
  ⟨by decide,
   c9_get_len_response ⟨[], 0, 1, zeroStreamingControl, zeroStreamingControl, 0⟩
     ⟨0x21, 0x85, 0x0100, 1, 0⟩ (by decide) (by decide) (by decide) (by decide)
     (by decide) (Or.inl (by decide))⟩

theorem getFreeBufferIfAvailable_none :
    ∀ {l : List BufferItem}, (∀ item ∈ l, item.state ≠ BufferState.free) →
      getFreeBufferIfAvailable l = none := by
  intro l
  induction l with
  | nil => intro _; rfl
  | cons a t ih =>
      intro h
      have ha := h a (List.mem_cons_self a t)
      have ht := ih (fun x hx => h x (List.mem_cons_of_mem a hx))
      simp [getFreeBufferIfAvailable, ha, ht]

/-- C4: when every producer slot is `IN_USE` or `FILLED` (none is `FREE`),
`encodeImage` returns `ERROR`, unlocks and releases the hardware buffer
registered under `desc.bufferId` and removes that map entry, leaves the
producer slot states untouched, and enqueues nothing to the encoder. -/
theorem c4_backpressure_drop (st : SdkFrameProviderState) (desc : HardwareBufferDesc)
    (timestamp rotation handle : Nat)
    (hfull : ∀ item ∈ st.producers, item.state ≠ BufferState.free)
    (hmap : st.bufferIdToAHardwareBuffer.lookup desc.bufferId = some handle) :
    encodeImage st desc timestamp rotation =
      (Status.error,
       { st with bufferIdToAHardwareBuffer :=
           st.bufferIdToAHardwareBuffer.eraseP (fun p => p.1 = desc.bufferId) },
       [HwBufferAction.unlock handle, HwBufferAction.release handle]) := by
  simp [encodeImage, getFreeBufferIfAvailable_none hfull, releaseHardwareBuffer, hmap]

/-- A saturated producer array used by the C4 witness. -/
def c4Producers : List BufferItem :=
  [⟨1, 5, BufferState.inUse⟩, ⟨2, 6, BufferState.filled⟩, ⟨3, 7, BufferState.inUse⟩]

/-- The hardware-buffer descriptor used by the C4 witness. -/
def c4Desc : HardwareBufferDesc := ⟨640, 480, 0, 7, PlaneDesc.argb ⟨0, 0⟩⟩

/-- C4 witness: the backpressure drop at a concrete saturated pool with
buffer id 7 registered to hardware-buffer handle 1234. -/
theorem c4_backpressure_drop_witness :
    ((∀ item ∈ c4Producers, item.state ≠ BufferState.free) ∧
     List.lookup c4Desc.bufferId [(7, 1234)] = some 1234) ∧
    encodeImage ⟨c4Producers, [(7, 1234)], []⟩ c4Desc 111 0 =
      (Status.error,
       ⟨c4Producers, List.eraseP (fun p => p.1 = c4Desc.bufferId) [(7, 1234)], []⟩,
       [HwBufferAction.unlock 1234, HwBufferAction.release 1234]) :=
  ⟨⟨by decide, by decide⟩,
   c4_backpressure_drop ⟨c4Producers, [(7, 1234)], []⟩ c4Desc 111 0 1234
     (by decide) (by decide)⟩

/-! ## Lemmas about the newest-wins selection scan -/

theorem scanFilledAux_ts_le :
    ∀ (items : List BufferItem) (i : Nat) (found : Bool) (fIdx ts : Nat),
      ts ≤ (scanFilledAux items i found fIdx ts).2.2 := by
  intro items
  induction items with
  | nil => intro i found fIdx ts; simp [scanFilledAux]
  | cons a t ih =>
      intro i found fIdx ts
      by_cases hc : a.state = BufferState.filled ∧ ts < a.timestamp
      · simp only [scanFilledAux, if_pos hc]
        exact Nat.le_trans (Nat.le_of_lt hc.2) (ih (i + 1) true i a.timestamp)
      · simp only [scanFilledAux, if_neg hc]
        exact ih (i + 1) found fIdx ts

theorem scanFilledAux_max :
    ∀ (items : List BufferItem) (i : Nat) (found : Bool) (fIdx ts : Nat),
      ∀ item ∈ items, item.state = BufferState.filled →
        item.timestamp ≤ (scanFilledAux items i found fIdx ts).2.2 := by
  intro items
  induction items with
  | nil => intro i found fIdx ts item hm; simp at hm
  | cons a t ih =>
      intro i found fIdx ts item hm hf
      by_cases hc : a.state = BufferState.filled ∧ ts < a.timestamp
      · simp only [scanFilledAux, if_pos hc]
        rcases List.mem_cons.mp hm with rfl | h
        · exact scanFilledAux_ts_le t (i + 1) true i item.timestamp
        · exact ih (i + 1) true i a.timestamp item h hf
      · simp only [scanFilledAux, if_neg hc]
        rcases List.mem_cons.mp hm with rfl | h
        · have hle : item.timestamp ≤ ts := by
            by_contra hlt
            exact hc ⟨hf, Nat.lt_of_not_le hlt⟩
          exact Nat.le_trans hle (scanFilledAux_ts_le t (i + 1) found fIdx ts)
        · exact ih (i + 1) found fIdx ts item h hf

theorem scanFilledAux_stable :
    ∀ (items : List BufferItem) (i : Nat) (found : Bool) (fIdx ts : Nat),
      (scanFilledAux items i found fIdx ts).2.2 = ts →
      scanFilledAux items i found fIdx ts = (found, fIdx, ts) := by
  intro items
  induction items with
  | nil => intro i found fIdx ts _; rfl
  | cons a t ih =>
      intro i found fIdx ts h
      by_cases hc : a.state = BufferState.filled ∧ ts < a.timestamp
      · exfalso
        have h1 := scanFilledAux_ts_le t (i + 1) true i a.timestamp
        simp only [scanFilledAux, if_pos hc] at h
        omega
      · simp only [scanFilledAux, if_neg hc] at h ⊢
        exact ih (i + 1) found fIdx ts h

theorem scanFilledAux_found_spec :
    ∀ (items : List BufferItem) (i : Nat) (found : Bool) (fIdx ts : Nat),
      scanFilledAux items i found fIdx ts = (found, fIdx, ts) ∨
      ∃ k, k < items.length ∧
        (scanFilledAux items i found fIdx ts).1 = true ∧
        (scanFilledAux items i found fIdx ts).2.1 = i + k ∧
        (items.getD k default).state = BufferState.filled ∧
        (items.getD k default).timestamp = (scanFilledAux items i found fIdx ts).2.2 ∧
        ts < (scanFilledAux items i found fIdx ts).2.2 := by
  intro items
  induction items with
  | nil => intro i found fIdx ts; exact Or.inl rfl
  | cons a t ih =>
      intro i found fIdx ts
      by_cases hc : a.state = BufferState.filled ∧ ts < a.timestamp
      · simp only [scanFilledAux, if_pos hc]
        rcases ih (i + 1) true i a.timestamp with h | ⟨k, hk, h1, h2, h3, h4, h5⟩
        · refine Or.inr ⟨0, by simp, ?_, ?_, ?_, ?_, ?_⟩ <;>
            simp [h, List.getD, hc.1, hc.2]
        · refine Or.inr ⟨k + 1, by simpa using hk, h1, by omega, ?_, ?_, ?_⟩
          · simpa [List.getD] using h3
          · simpa [List.getD] using h4
          · exact Nat.lt_trans hc.2 h5
      · simp only [scanFilledAux, if_neg hc]
        rcases ih (i + 1) found fIdx ts with h | ⟨k, hk, h1, h2, h3, h4, h5⟩
        · exact Or.inl h
        · refine Or.inr ⟨k + 1, by simpa using hk, h1, by omega, ?_, ?_, h5⟩
          · simpa [List.getD] using h3
          · simpa [List.getD] using h4

theorem scanFilledAux_tie :
    ∀ (items : List BufferItem) (i : Nat) (found : Bool) (fIdx ts : Nat) (k : Nat),
      k < items.length →
      (items.getD k default).state = BufferState.filled →
      (items.getD k default).timestamp = (scanFilledAux items i found fIdx ts).2.2 →
      ts < (scanFilledAux items i found fIdx ts).2.2 →
      (scanFilledAux items i found fIdx ts).2.1 ≤ i + k := by
  intro items
  induction items with
  | nil => intro i found fIdx ts k hk; simp at hk
  | cons a t ih =>
      intro i found fIdx ts k hk hf hts hlt
      by_cases hc : a.state = BufferState.filled ∧ ts < a.timestamp
      · simp only [scanFilledAux, if_pos hc] at hts hlt ⊢
        rcases Nat.lt_or_ge a.timestamp (scanFilledAux t (i + 1) true i a.timestamp).2.2
          with hcase | hcase
        · match k with
          | 0 =>
              exfalso
              simp [List.getD] at hts
              omega
          | k + 1 =>
              have := ih (i + 1) true i a.timestamp k (by simpa using hk)
                (by simpa [List.getD] using hf) (by simpa [List.getD] using hts) hcase
              omega
        · have hstable : (scanFilledAux t (i + 1) true i a.timestamp).2.2 = a.timestamp :=
            Nat.le_antisymm
              (by omega)
              (scanFilledAux_ts_le t (i + 1) true i a.timestamp)
          rw [scanFilledAux_stable t (i + 1) true i a.timestamp hstable]
          exact Nat.le_add_right i k
      · simp only [scanFilledAux, if_neg hc] at hts hlt ⊢
        match k with
        | 0 =>
            exfalso
            simp [List.getD] at hts hf
            have h1 := scanFilledAux_ts_le t (i + 1) found fIdx ts
            exact hc ⟨hf, by omega⟩
        | k + 1 =>
            have := ih (i + 1) found fIdx ts k (by simpa using hk)
              (by simpa [List.getD] using hf) (by simpa [List.getD] using hts) hlt
            omega

/-! ## Lemmas about the cancellation pass -/

theorem cancelOlderBuffersAux_length :
    ∀ (items : List BufferItem) (j k : Nat),
      (cancelOlderBuffersAux items j k).length = items.length := by
  intro items
  induction items with
  | nil => intro j k; rfl
  | cons a t ih => intro j k; simp [cancelOlderBuffersAux, ih]

theorem cancelOlderBuffersAux_getD :
    ∀ (items : List BufferItem) (j k n : Nat), n < items.length →
      (cancelOlderBuffersAux items j k).getD n default =
        (if (items.getD n default).state = BufferState.filled ∧ j + n ≠ k then
          { items.getD n default with state := BufferState.free }
        else items.getD n default) := by
  intro items
  induction items with
  | nil => intro j k n hn; simp at hn
  | cons a t ih =>
      intro j k n hn
      match n with
      | 0 => simp [cancelOlderBuffersAux, List.getD]
      | n + 1 =>
          have := ih (j + 1) k n (by simpa using hn)
          simp only [cancelOlderBuffersAux, List.getD] at this ⊢
          simpa [Nat.add_assoc, Nat.add_comm 1 n] using this

/-- Structure of a successful `getFilledBufferAndSwap` call, in terms of
the selection scan: the chosen index, the selected slot, and the exact
shape of the returned buffer and the post-state. -/
theorem getFilledBufferAndSwap_some (m : BufferManager) (b : BufferItem)
    (m1 : BufferManager) (h : getFilledBufferAndSwap m = some (b, m1)) :
    ∃ k, k < m.producers.length ∧
      (scanFilledAux m.producers 0 false 0 0).1 = true ∧
      (scanFilledAux m.producers 0 false 0 0).2.1 = k ∧
      (m.producers.getD k default).state = BufferState.filled ∧
      (m.producers.getD k default).timestamp =
        (scanFilledAux m.producers 0 false 0 0).2.2 ∧
      0 < (scanFilledAux m.producers 0 false 0 0).2.2 ∧
      b = { m.producers.getD k default with state := BufferState.inUse } ∧
      m1 = { consumer := b,
             producers := (cancelOlderBuffers m.producers k).set k
               { m.consumer with state := BufferState.free } } := by
  obtain hfs := scanFilledAux_found_spec m.producers 0 false 0 0
  simp only [getFilledBufferAndSwap, filledProducerBufferAvailableLocked] at h
  rcases hfs with heq | ⟨k, hk, hfound, hidx, hfill, hts, hpos⟩
  · rw [heq] at h
    simp at h
  · rw [hfound] at h
    simp only [if_true] at h
    have hidx' : (scanFilledAux m.producers 0 false 0 0).2.1 = k := by omega
    rw [hidx'] at h
    have hchosen : (cancelOlderBuffers m.producers k).getD k default =
        m.producers.getD k default := by
      simp only [cancelOlderBuffers]
      rw [cancelOlderBuffersAux_getD m.producers 0 k k hk]
      simp
    rw [hchosen] at h
    simp only [Option.some.injEq, Prod.mk.injEq] at h
    obtain ⟨hb, hm1⟩ := h
    exact ⟨k, hk, hfound, hidx', hfill, hts, hpos, hb.symm, by rw [← hm1, ← hb]⟩

/-- C1: a successful `getFilledBufferAndSwap` call selects, among the
producer slots Filled at the moment of selection, one carrying the
maximal timestamp (the lowest index on ties); the returned buffer is that
slot's buffer in the `IN_USE` state and becomes the new consumer slot;
every other slot Filled at selection time is `FREE` afterwards, and the
previously held consumer slot sits in the producer array, `FREE`, at the
selected index. -/
theorem c1_take_filled_and_swap (m : BufferManager) (b : BufferItem)
    (m1 : BufferManager) (h : getFilledBufferAndSwap m = some (b, m1)) :
    ∃ index, index < m.producers.length ∧
      (m.producers.getD index default).state = BufferState.filled ∧
      b = { m.producers.getD index default with state := BufferState.inUse } ∧
      m1.consumer = b ∧
      b.state = BufferState.inUse ∧
      (∀ item ∈ m.producers, item.state = BufferState.filled →
        item.timestamp ≤ b.timestamp) ∧
      (∀ j, j < m.producers.length →
        (m.producers.getD j default).state = BufferState.filled →
        (m.producers.getD j default).timestamp = b.timestamp → index ≤ j) ∧
      (∀ j, j < m.producers.length → j ≠ index →
        (m.producers.getD j default).state = BufferState.filled →
        (m1.producers.getD j default).state = BufferState.free) ∧
      m1.producers.getD index default = { m.consumer with state := BufferState.free } ∧
      m1.producers.length = m.producers.length := by
  obtain ⟨k, hk, hfound, hidx, hfill, hts, hpos, hb, hm1⟩ :=
    getFilledBufferAndSwap_some m b m1 h
  have hclen : (cancelOlderBuffers m.producers k).length = m.producers.length :=
    cancelOlderBuffersAux_length m.producers 0 k
  have hbts : b.timestamp = (scanFilledAux m.producers 0 false 0 0).2.2 := by
    rw [hb]
    exact hts
  refine ⟨k, hk, hfill, hb, ?_, ?_, ?_, ?_, ?_, ?_, ?_⟩
  · rw [hm1]
  · rw [hb]
  · intro item hmem hf
    rw [hbts]
    exact scanFilledAux_max m.producers 0 false 0 0 item hmem hf
  · intro j hj hjf hjts
    have := scanFilledAux_tie m.producers 0 false 0 0 j hj hjf
      (by rw [← hbts]; exact hjts) hpos
    omega
  · intro j hj hjne hjf
    rw [hm1]
    simp only
    rw [getD_set_ne _ k j _ (fun hh => hjne hh.symm)]
    simp only [cancelOlderBuffers]
    rw [cancelOlderBuffersAux_getD m.producers 0 k j hj]
    simp only [List.getD, List.get?_eq_getElem?] at hjf
    simp [hjf, hjne]
  · rw [hm1]
    simp only
    exact getD_set_self _ k _ (by omega)
  · rw [hm1]
    simp only [List.length_set]
    exact hclen

/-- C10: a Filled producer slot with timestamp 0 is never returned by
`getFilledBufferAndSwap` (any returned buffer has a strictly positive
timestamp, since the scan only accepts timestamps strictly above the
initial 0); when every Filled slot has timestamp 0 the availability scan
reports nothing (the consumer keeps waiting) while its cancellation pass
still demotes every such slot at an index other than 0 to `FREE`. -/
theorem c10_zero_timestamp_slots (m : BufferManager) :
    (∀ b m1, getFilledBufferAndSwap m = some (b, m1) → 0 < b.timestamp) ∧
    ((∀ item ∈ m.producers, item.state = BufferState.filled → item.timestamp = 0) →
      getFilledBufferAndSwap m = none ∧
      (filledProducerBufferAvailableLocked m).1 = false ∧
      (∀ j, j < m.producers.length → j ≠ 0 →
        (m.producers.getD j default).state = BufferState.filled →
        ((filledProducerBufferAvailableLocked m).2.2.producers.getD j default).state =
          BufferState.free)) := by
  constructor
  · intro b m1 h
    obtain ⟨k, _, _, _, _, hts, hpos, hb, _⟩ := getFilledBufferAndSwap_some m b m1 h
    rw [hb]
    show 0 < (m.producers.getD k default).timestamp
    rw [hts]
    exact hpos
  · intro hz
    have heq : scanFilledAux m.producers 0 false 0 0 = (false, 0, 0) := by
      rcases scanFilledAux_found_spec m.producers 0 false 0 0 with heq |
        ⟨k, hk, _, _, hfill, hts, hpos⟩
      · exact heq
      · exfalso
        have := hz (m.producers.getD k default) (getD_mem default m.producers k hk) hfill
        omega
    refine ⟨?_, ?_, ?_⟩
    · simp [getFilledBufferAndSwap, filledProducerBufferAvailableLocked, heq]
    · simp [filledProducerBufferAvailableLocked, heq]
    · intro j hj hj0 hjf
      simp only [filledProducerBufferAvailableLocked, heq]
      simp only [cancelOlderBuffers]
      rw [cancelOlderBuffersAux_getD m.producers 0 0 j hj]
      simp only [List.getD, List.get?_eq_getElem?] at hjf
      simp [hjf, hj0]

/-- The pool of the specification's newest-wins scenario: four producer
slots Filled with timestamps 100, 200, 150, 50. -/
def c1Pool : BufferManager :=
  ⟨⟨9, 0, BufferState.inUse⟩,
   [⟨1, 100, BufferState.filled⟩, ⟨2, 200, BufferState.filled⟩,
    ⟨3, 150, BufferState.filled⟩, ⟨4, 50, BufferState.filled⟩]⟩

/-- The buffer returned on `c1Pool`. -/
def c1Returned : BufferItem := ⟨2, 200, BufferState.inUse⟩

/-- The pool state after the swap on `c1Pool`. -/
def c1PoolAfter : BufferManager :=
  ⟨c1Returned,
   [⟨1, 100, BufferState.free⟩, ⟨9, 0, BufferState.free⟩,
    ⟨3, 150, BufferState.free⟩, ⟨4, 50, BufferState.free⟩]⟩

/-- C1 witness: the newest-wins swap on the concrete scenario pool. -/
theorem c1_take_filled_and_swap_witness :
    getFilledBufferAndSwap c1Pool = some (c1Returned, c1PoolAfter) ∧
    (∃ index, index < c1Pool.producers.length ∧
      (c1Pool.producers.getD index default).state = BufferState.filled ∧
      c1Returned = { c1Pool.producers.getD index default with state := BufferState.inUse } ∧
      c1PoolAfter.consumer = c1Returned ∧
      c1Returned.state = BufferState.inUse ∧
      (∀ item ∈ c1Pool.producers, item.state = BufferState.filled →
        item.timestamp ≤ c1Returned.timestamp) ∧
      (∀ j, j < c1Pool.producers.length →
        (c1Pool.producers.getD j default).state = BufferState.filled →
        (c1Pool.producers.getD j default).timestamp = c1Returned.timestamp → index ≤ j) ∧
      (∀ j, j < c1Pool.producers.length → j ≠ index →
        (c1Pool.producers.getD j default).state = BufferState.filled →
        (c1PoolAfter.producers.getD j default).state = BufferState.free) ∧
      c1PoolAfter.producers.getD index default =
        { c1Pool.consumer with state := BufferState.free } ∧
      c1PoolAfter.producers.length = c1Pool.producers.length) :=
  ⟨by decide, c1_take_filled_and_swap c1Pool c1Returned c1PoolAfter (by decide)⟩

/-- A pool whose Filled producer slots all carry timestamp 0. -/
def c10Pool : BufferManager :=
  ⟨⟨9, 0, BufferState.inUse⟩,
   [⟨1, 0, BufferState.filled⟩, ⟨2, 0, BufferState.filled⟩]⟩

/-- C10 witness: the all-zero-timestamp pool yields no buffer, and the
timestamp-0 Filled slot at index 1 is demoted to `FREE` by the scan. -/
theorem c10_zero_timestamp_slots_witness :
    getFilledBufferAndSwap c10Pool = none ∧
    ((filledProducerBufferAvailableLocked c10Pool).2.2.producers.getD 1 default).state =
      BufferState.free :=
  ⟨((c10_zero_timestamp_slots c10Pool).2 (by decide)).1,
   ((c10_zero_timestamp_slots c10Pool).2 (by decide)).2.2 1 (by decide) (by decide)
     (by decide)⟩

/-! ## Negotiation lemmas -/

/-- Well-formedness of a format catalogue as enumerated from the gadget
driver: at least one format, at most 255 of them (`bFormatIndex` is one
byte), every format carrying at least one and at most 255 frames, and
every frame carrying at least one interval, listed in ascending order,
each a `uint32_t` value. -/
def CatalogueWF (formats : List ConfigFormat) : Prop :=
  formats ≠ [] ∧ formats.length ≤ 255 ∧
  ∀ f ∈ formats, f.frames ≠ [] ∧ f.frames.length ≤ 255 ∧
    ∀ fr ∈ f.frames, fr.intervals ≠ [] ∧ fr.intervals.Pairwise (· ≤ ·) ∧
      ∀ iv ∈ fr.intervals, iv < 2 ^ 32

theorem chosenFormatIndex_spec (formats : List ConfigFormat) (t : FormatTriplet)
    (hne : formats ≠ []) (hlen : formats.length ≤ 255) (hpos : 1 ≤ t.formatIndex) :
    1 ≤ chosenFormatIndex formats t ∧ chosenFormatIndex formats t ≤ formats.length := by
  have hmod : formats.length % 256 = formats.length := Nat.mod_eq_of_lt (by omega)
  have hlen1 : 0 < formats.length := List.length_pos.mpr hne
  unfold chosenFormatIndex
  by_cases hgt : t.formatIndex > formats.length <;> simp [hgt, hmod] <;> omega

theorem chosenFormat_mem (formats : List ConfigFormat) (t : FormatTriplet)
    (h1 : 1 ≤ chosenFormatIndex formats t)
    (h2 : chosenFormatIndex formats t ≤ formats.length) :
    chosenFormat formats t ∈ formats := by
  unfold chosenFormat
  exact getD_mem default formats _ (by omega)

theorem chosenFrameIndex_spec (formats : List ConfigFormat) (t : FormatTriplet)
    (hfne : (chosenFormat formats t).frames ≠ [])
    (hflen : (chosenFormat formats t).frames.length ≤ 255)
    (hpos : 1 ≤ t.frameSizeIndex) :
    1 ≤ chosenFrameIndex formats t ∧
    chosenFrameIndex formats t ≤ (chosenFormat formats t).frames.length := by
  have hmod : (chosenFormat formats t).frames.length % 256 =
      (chosenFormat formats t).frames.length := Nat.mod_eq_of_lt (by omega)
  have hlen1 : 0 < (chosenFormat formats t).frames.length := List.length_pos.mpr hfne
  unfold chosenFrameIndex
  by_cases hgt : t.frameSizeIndex > (chosenFormat formats t).frames.length <;>
    simp [hgt, hmod] <;> omega

theorem chosenFrame_mem (formats : List ConfigFormat) (t : FormatTriplet)
    (h1 : 1 ≤ chosenFrameIndex formats t)
    (h2 : chosenFrameIndex formats t ≤ (chosenFormat formats t).frames.length) :
    chosenFrame formats t ∈ (chosenFormat formats t).frames := by
  unfold chosenFrame
  exact getD_mem default _ _ (by omega)

theorem setStreamingControl_fields (formats : List ConfigFormat)
    (sc : UvcStreamingControl) (t : FormatTriplet)
    (h1 : chosenFormatIndex formats t ≠ 0) (h2 : chosenFrameIndex formats t ≠ 0) :
    (setStreamingControl formats sc t).bFormatIndex = chosenFormatIndex formats t ∧
    (setStreamingControl formats sc t).bFrameIndex = chosenFrameIndex formats t ∧
    (setStreamingControl formats sc t).dwFrameInterval = negotiatedInterval formats t := by
  simp [setStreamingControl, h1, h2]

theorem setStreamingControl_complete (formats : List ConfigFormat)
    (sc : UvcStreamingControl) (t : FormatTriplet)
    (h1 : chosenFormatIndex formats t ≠ 0) (h2 : chosenFrameIndex formats t ≠ 0) :
    setStreamingControl formats sc t =
      { zeroStreamingControl with
        bmHint := 1
        bmFramingInfo := 3
        bPreferedVersion := 1
        bMaxVersion := 1
        bFormatIndex := chosenFormatIndex formats t
        bFrameIndex := chosenFrameIndex formats t
        dwFrameInterval := negotiatedInterval formats t
        dwMaxPayloadTransferSize := USB_PAYLOAD_TRANSFER_SIZE
        dwMaxVideoFrameSize :=
          if (chosenFormat formats t).fcc = V4L2_PIX_FMT_YUYV ∨
              (chosenFormat formats t).fcc = V4L2_PIX_FMT_MJPEG
          then (chosenFrame formats t).width * (chosenFrame formats t).height * 2 % 2 ^ 32
          else 0 } := by
  simp [setStreamingControl, h1, h2]

/-- When the requested interval exceeds every listed interval, the code
selects the last listed interval, which under the ascending-order
invariant is an upper bound of the list. -/
theorem negotiatedInterval_of_all_lt (formats : List ConfigFormat) (t : FormatTriplet)
    (hlt : ∀ iv ∈ (chosenFrame formats t).intervals, iv < t.frameInterval) :
    negotiatedInterval formats t =
      (chosenFrame formats t).intervals.getD
        ((chosenFrame formats t).intervals.length - 1) 0 := by
  unfold negotiatedInterval
  rw [pickFrameInterval_none.mpr hlt]

/-- The last-element selection at the maximal `uint32_t` request: whether
or not an interval equal to `0xFFFFFFFF` is listed, the selected value is
the last listed interval. -/
theorem pick_max_interval (l : List Nat) (hne : l ≠ []) (hs : l.Pairwise (· ≤ ·))
    (hb : ∀ iv ∈ l, iv < 2 ^ 32) :
    (match pickFrameInterval l 4294967295 with
     | some v => v
     | none => l.getD (l.length - 1) 0) = l.getD (l.length - 1) 0 := by
  cases hp : pickFrameInterval l 4294967295 with
  | none => rfl
  | some v =>
      have h1 := pickFrameInterval_some_le hp
      have h2 := pickFrameInterval_some_mem hp
      have h3 := hb v h2
      have h4 := pairwise_le_getD_last hs v h2
      have h5 : l.getD (l.length - 1) 0 ∈ l :=
        getD_mem 0 l _ (by have := List.length_pos.mpr hne; omega)
      have h6 := hb _ h5
      simp only
      omega

/-- A one-format catalogue for the C2 counterexample. -/
def c2Catalogue1 : List ConfigFormat :=
  [⟨0, V4L2_PIX_FMT_MJPEG, [⟨0, 640, 480, [333333]⟩]⟩]

/-- C2 counterexample: the claim quantifies over every input triplet, but
for the triplet `(formatIdx = 255, frameIdx = 0, interval = 0)` on a
one-format catalogue, `formatIdx` exceeds the number of formats yet the
negotiation aborts at the frame-index clamp (a `uint8_t` 0 fails the
`chosenFrameIndex <= 0` check) and leaves the output structure untouched,
so `bFormatIndex` is 0, not `numFormats = 1`. -/
theorem c2_counterexample :
    (255 : Nat) > c2Catalogue1.length ∧
    (setStreamingControl c2Catalogue1 zeroStreamingControl ⟨255, 0, 0⟩).bFormatIndex ≠
      c2Catalogue1.length := by decide

/-- C2 (amended): for triplets with 1-based (nonzero) format and frame
indices, negotiation clamps out-of-range requests downward: a format
index above the catalogue size yields `bFormatIndex = numFormats`; a
frame index above the chosen format's frame count yields the last frame
index; an interval above every advertised interval of the chosen frame
yields that frame's last (maximal) interval.  A GET_MAX streaming request
negotiates against the triplet `(0xFF, 0xFF, 0xFFFFFFFF)` and returns the
last format, its last frame, and that frame's maximal interval. -/
theorem c2_negotiation_clamp (formats : List ConfigFormat) (t : FormatTriplet)
    (hwf : CatalogueWF formats)
    (ht1 : t.formatIndex ≤ 255) (ht2 : t.frameSizeIndex ≤ 255)
    (hpos1 : 1 ≤ t.formatIndex) (hpos2 : 1 ≤ t.frameSizeIndex) :
    (t.formatIndex > formats.length →
      (setStreamingControl formats zeroStreamingControl t).bFormatIndex =
        formats.length) ∧
    (t.frameSizeIndex > (chosenFormat formats t).frames.length →
      (setStreamingControl formats zeroStreamingControl t).bFrameIndex =
        (chosenFormat formats t).frames.length) ∧
    ((∀ iv ∈ (chosenFrame formats t).intervals, iv < t.frameInterval) →
      (setStreamingControl formats zeroStreamingControl t).dwFrameInterval =
        (chosenFrame formats t).intervals.getD
          ((chosenFrame formats t).intervals.length - 1) 0 ∧
      (∀ iv ∈ (chosenFrame formats t).intervals,
        iv ≤ (setStreamingControl formats zeroStreamingControl t).dwFrameInterval)) ∧
    ((setStreamingControl formats zeroStreamingControl maxFormatTriplet).bFormatIndex =
      formats.length ∧
     chosenFormat formats maxFormatTriplet = formats.getD (formats.length - 1) default ∧
     (setStreamingControl formats zeroStreamingControl maxFormatTriplet).bFrameIndex =
      (chosenFormat formats maxFormatTriplet).frames.length ∧
     chosenFrame formats maxFormatTriplet =
       (chosenFormat formats maxFormatTriplet).frames.getD
         ((chosenFormat formats maxFormatTriplet).frames.length - 1) default ∧
     (setStreamingControl formats zeroStreamingControl maxFormatTriplet).dwFrameInterval =
      (chosenFrame formats maxFormatTriplet).intervals.getD
        ((chosenFrame formats maxFormatTriplet).intervals.length - 1) 0 ∧
     (∀ iv ∈ (chosenFrame formats maxFormatTriplet).intervals,
       iv ≤ (setStreamingControl formats zeroStreamingControl
         maxFormatTriplet).dwFrameInterval)) ∧
    (∀ (dev : UVCDeviceState) (request : UsbCtrlRequest) (response : UvcRequestData),
      dev.formats = formats →
      request.bRequest = UVC_GET_MAX →
      (request.wValue / 256 = UVC_VS_PROBE_CONTROL ∨
       request.wValue / 256 = UVC_VS_COMMIT_CONTROL) →
      (processSetupStreamingEvent dev request response).2.data =
        writeCtrl response.data
          (setStreamingControl formats (deserializeStreamingControl response.data)
            maxFormatTriplet)) := by
  obtain ⟨hne, hlen, hforall⟩ := hwf
  have hcf := chosenFormatIndex_spec formats t hne hlen hpos1
  have hmem := chosenFormat_mem formats t hcf.1 hcf.2
  obtain ⟨hfne, hflen, hframes⟩ := hforall _ hmem
  have hcfr := chosenFrameIndex_spec formats t hfne hflen hpos2
  have hfrmem := chosenFrame_mem formats t hcfr.1 hcfr.2
  obtain ⟨hivne, hivsorted, hivlt⟩ := hframes _ hfrmem
  have hf := setStreamingControl_fields formats zeroStreamingControl t
    (by omega) (by omega)
  have h0fmt : 0 < formats.length := List.length_pos.mpr hne
  have hcfmax : chosenFormatIndex formats maxFormatTriplet = formats.length := by
    unfold chosenFormatIndex
    have hfs : maxFormatTriplet.formatIndex = 255 := rfl
    rw [hfs]
    by_cases h : (255 : Nat) > formats.length
    · rw [if_pos h]
      exact Nat.mod_eq_of_lt (by omega)
    · rw [if_neg h]
      omega
  have hmemmax := chosenFormat_mem formats maxFormatTriplet (by omega) (by omega)
  obtain ⟨hfnemax, hflenmax, hframesmax⟩ := hforall _ hmemmax
  have h0max : 0 < (chosenFormat formats maxFormatTriplet).frames.length :=
    List.length_pos.mpr hfnemax
  have hcfrmax : chosenFrameIndex formats maxFormatTriplet =
      (chosenFormat formats maxFormatTriplet).frames.length := by
    unfold chosenFrameIndex
    have hfs : maxFormatTriplet.frameSizeIndex = 255 := rfl
    rw [hfs]
    by_cases h : (255 : Nat) > (chosenFormat formats maxFormatTriplet).frames.length
    · rw [if_pos h]
      exact Nat.mod_eq_of_lt (by omega)
    · rw [if_neg h]
      omega
  have hfrmemmax := chosenFrame_mem formats maxFormatTriplet (by omega) (by omega)
  obtain ⟨hivnemax, hivsortedmax, hivltmax⟩ := hframesmax _ hfrmemmax
  have hfmax := setStreamingControl_fields formats zeroStreamingControl maxFormatTriplet
    (by omega) (by omega)
  have hnegmax : negotiatedInterval formats maxFormatTriplet =
      (chosenFrame formats maxFormatTriplet).intervals.getD
        ((chosenFrame formats maxFormatTriplet).intervals.length - 1) 0 := by
    unfold negotiatedInterval
    exact pick_max_interval _ hivnemax hivsortedmax hivltmax
  refine ⟨?_, ?_, ?_, ?_, ?_⟩
  · intro hgt
    rw [hf.1]
    simp [chosenFormatIndex, hgt]
    omega
  · intro hgt
    rw [hf.2.1]
    simp [chosenFrameIndex, hgt]
    omega
  · intro hlt
    constructor
    · rw [hf.2.2]
      exact negotiatedInterval_of_all_lt formats t hlt
    · intro iv hiv
      rw [hf.2.2, negotiatedInterval_of_all_lt formats t hlt]
      exact pairwise_le_getD_last hivsorted iv hiv
  · refine ⟨?_, ?_, ?_, ?_, ?_, ?_⟩
    · rw [hfmax.1, hcfmax]
    · unfold chosenFormat
      rw [hcfmax]
    · rw [hfmax.2.1, hcfrmax]
    · unfold chosenFrame
      rw [hcfrmax]
    · rw [hfmax.2.2]
      exact hnegmax
    · intro iv hiv
      rw [hfmax.2.2, hnegmax]
      exact pairwise_le_getD_last hivsortedmax iv hiv
  · intro dev request response hdev hreq hsel
    rcases hsel with h | h <;>
      simp [processSetupStreamingEvent, hreq, h, hdev,
        UVC_GET_MAX, UVC_SET_CUR, UVC_GET_CUR, UVC_VS_PROBE_CONTROL,
        UVC_VS_COMMIT_CONTROL]

/-- A concrete two-format catalogue for the negotiation witnesses. -/
def c2Cat : List ConfigFormat :=
  [⟨0, V4L2_PIX_FMT_MJPEG,
    [⟨0, 640, 480, [333333, 666666]⟩, ⟨1, 1280, 720, [400000]⟩]⟩,
   ⟨1, V4L2_PIX_FMT_YUYV, [⟨0, 320, 240, [333333, 1000000]⟩]⟩]

/-- An out-of-range triplet for the C2 witness. -/
def c2Triplet : FormatTriplet := ⟨7, 9, 4294967295⟩

/-- C2 witness: the amended clamping statement at the concrete catalogue
and the out-of-range triplet `(7, 9, 0xFFFFFFFF)`. -/
theorem c2_negotiation_clamp_witness :
    (CatalogueWF c2Cat ∧ c2Triplet.formatIndex ≤ 255 ∧ c2Triplet.frameSizeIndex ≤ 255 ∧
     1 ≤ c2Triplet.formatIndex ∧ 1 ≤ c2Triplet.frameSizeIndex) ∧
    ((c2Triplet.formatIndex > c2Cat.length →
      (setStreamingControl c2Cat zeroStreamingControl c2Triplet).bFormatIndex =
        c2Cat.length) ∧
    (c2Triplet.frameSizeIndex > (chosenFormat c2Cat c2Triplet).frames.length →
      (setStreamingControl c2Cat zeroStreamingControl c2Triplet).bFrameIndex =
        (chosenFormat c2Cat c2Triplet).frames.length) ∧
    ((∀ iv ∈ (chosenFrame c2Cat c2Triplet).intervals, iv < c2Triplet.frameInterval) →
      (setStreamingControl c2Cat zeroStreamingControl c2Triplet).dwFrameInterval =
        (chosenFrame c2Cat c2Triplet).intervals.getD
          ((chosenFrame c2Cat c2Triplet).intervals.length - 1) 0 ∧
      (∀ iv ∈ (chosenFrame c2Cat c2Triplet).intervals,
        iv ≤ (setStreamingControl c2Cat zeroStreamingControl c2Triplet).dwFrameInterval)) ∧
    ((setStreamingControl c2Cat zeroStreamingControl maxFormatTriplet).bFormatIndex =
      c2Cat.length ∧
     chosenFormat c2Cat maxFormatTriplet = c2Cat.getD (c2Cat.length - 1) default ∧
     (setStreamingControl c2Cat zeroStreamingControl maxFormatTriplet).bFrameIndex =
      (chosenFormat c2Cat maxFormatTriplet).frames.length ∧
     chosenFrame c2Cat maxFormatTriplet =
       (chosenFormat c2Cat maxFormatTriplet).frames.getD
         ((chosenFormat c2Cat maxFormatTriplet).frames.length - 1) default ∧
     (setStreamingControl c2Cat zeroStreamingControl maxFormatTriplet).dwFrameInterval =
      (chosenFrame c2Cat maxFormatTriplet).intervals.getD
        ((chosenFrame c2Cat maxFormatTriplet).intervals.length - 1) 0 ∧
     (∀ iv ∈ (chosenFrame c2Cat maxFormatTriplet).intervals,
       iv ≤ (setStreamingControl c2Cat zeroStreamingControl
         maxFormatTriplet).dwFrameInterval)) ∧
    (∀ (dev : UVCDeviceState) (request : UsbCtrlRequest) (response : UvcRequestData),
      dev.formats = c2Cat →
      request.bRequest = UVC_GET_MAX →
      (request.wValue / 256 = UVC_VS_PROBE_CONTROL ∨
       request.wValue / 256 = UVC_VS_COMMIT_CONTROL) →
      (processSetupStreamingEvent dev request response).2.data =
        writeCtrl response.data
          (setStreamingControl c2Cat (deserializeStreamingControl response.data)
            maxFormatTriplet))) :=
  ⟨⟨by unfold CatalogueWF; decide, by decide, by decide, by decide, by decide⟩,
   c2_negotiation_clamp c2Cat c2Triplet (by unfold CatalogueWF; decide) (by decide)
     (by decide) (by decide) (by decide)⟩

theorem catalogue_chosen_facts (formats : List ConfigFormat) (t : FormatTriplet)
    (hwf : CatalogueWF formats) (hpos1 : 1 ≤ t.formatIndex)
    (hpos2 : 1 ≤ t.frameSizeIndex) :
    chosenFormatIndex formats t ≠ 0 ∧ chosenFrameIndex formats t ≠ 0 ∧
    (chosenFrame formats t).intervals ≠ [] ∧
    (chosenFrame formats t).intervals.Pairwise (· ≤ ·) ∧
    (∀ iv ∈ (chosenFrame formats t).intervals, iv < 2 ^ 32) := by
  obtain ⟨hne, hlen, hforall⟩ := hwf
  have hcf := chosenFormatIndex_spec formats t hne hlen hpos1
  have hmem := chosenFormat_mem formats t hcf.1 hcf.2
  obtain ⟨hfne, hflen, hframes⟩ := hforall _ hmem
  have hcfr := chosenFrameIndex_spec formats t hfne hflen hpos2
  have hfrmem := chosenFrame_mem formats t hcfr.1 hcfr.2
  obtain ⟨hivne, hivsorted, hivlt⟩ := hframes _ hfrmem
  exact ⟨by omega, by omega, hivne, hivsorted, hivlt⟩

/-- Re-running the interval selection on its own result returns the same
value: a selected first-fit is found again exactly, and the last listed
interval is found by first-fit under the ascending-order invariant. -/
theorem negotiatedInterval_fix (l : List Nat) (req : Nat) (hne : l ≠ [])
    (hs : l.Pairwise (· ≤ ·)) :
    (match pickFrameInterval l
        (match pickFrameInterval l req with
         | some v => v
         | none => l.getD (l.length - 1) 0) with
     | some v => v
     | none => l.getD (l.length - 1) 0) =
    (match pickFrameInterval l req with
     | some v => v
     | none => l.getD (l.length - 1) 0) := by
  cases hp : pickFrameInterval l req with
  | some w =>
      simp only
      rw [pickFrameInterval_fix hp]
  | none =>
      simp only
      have hmem : l.getD (l.length - 1) 0 ∈ l :=
        getD_mem 0 l _ (by have := List.length_pos.mpr hne; omega)
      rw [pickFrameInterval_mem_sorted hs hmem]

/-- C3: for in-range 1-based format and frame indices, the negotiated
`dwFrameInterval` is the first listed interval `≥` the requested one
(witnessed by its position, all earlier entries being strictly below the
request), is the last (maximal) listed interval when no such element
exists, and equals the request exactly when the request is listed. -/
theorem c3_first_interval_ge (formats : List ConfigFormat) (t : FormatTriplet)
    (hwf : CatalogueWF formats)
    (hf1 : 1 ≤ t.formatIndex) (hf2 : t.formatIndex ≤ formats.length)
    (hr1 : 1 ≤ t.frameSizeIndex)
    (hr2 : t.frameSizeIndex ≤ (chosenFormat formats t).frames.length) :
    ((∃ iv ∈ (chosenFrame formats t).intervals, t.frameInterval ≤ iv) →
      ∃ k, k < (chosenFrame formats t).intervals.length ∧
        (setStreamingControl formats zeroStreamingControl t).dwFrameInterval =
          (chosenFrame formats t).intervals.getD k 0 ∧
        t.frameInterval ≤
          (setStreamingControl formats zeroStreamingControl t).dwFrameInterval ∧
        (∀ j, j < k → (chosenFrame formats t).intervals.getD j 0 < t.frameInterval)) ∧
    ((∀ iv ∈ (chosenFrame formats t).intervals, iv < t.frameInterval) →
      (setStreamingControl formats zeroStreamingControl t).dwFrameInterval =
        (chosenFrame formats t).intervals.getD
          ((chosenFrame formats t).intervals.length - 1) 0 ∧
      (∀ iv ∈ (chosenFrame formats t).intervals,
        iv ≤ (setStreamingControl formats zeroStreamingControl t).dwFrameInterval)) ∧
    (t.frameInterval ∈ (chosenFrame formats t).intervals →
      (setStreamingControl formats zeroStreamingControl t).dwFrameInterval =
        t.frameInterval) := by
  obtain ⟨h1, h2, hivne, hivsorted, hivlt⟩ :=
    catalogue_chosen_facts formats t hwf hf1 hr1
  have hf := setStreamingControl_fields formats zeroStreamingControl t h1 h2
  refine ⟨?_, ?_, ?_⟩
  · rintro ⟨iv, hiv, hge⟩
    cases hp : pickFrameInterval (chosenFrame formats t).intervals t.frameInterval with
    | none =>
        exfalso
        have := pickFrameInterval_none.mp hp iv hiv
        omega
    | some v =>
        have hneg : negotiatedInterval formats t = v := by
          unfold negotiatedInterval
          rw [hp]
        obtain ⟨k, hk, hkv, hbelow⟩ := pickFrameInterval_first hp
        refine ⟨k, hk, ?_, ?_, hbelow⟩
        · rw [hf.2.2, hneg]
          exact hkv.symm
        · rw [hf.2.2, hneg]
          exact pickFrameInterval_some_le hp
  · intro hlt
    constructor
    · rw [hf.2.2]
      exact negotiatedInterval_of_all_lt formats t hlt
    · intro iv hiv
      rw [hf.2.2, negotiatedInterval_of_all_lt formats t hlt]
      exact pairwise_le_getD_last hivsorted iv hiv
  · intro hmem
    have hp := pickFrameInterval_mem_sorted hivsorted hmem
    rw [hf.2.2]
    unfold negotiatedInterval
    rw [hp]

/-- C3 witness: at the concrete catalogue, the triplet `(1, 1, 666666)`
requests an interval listed exactly. -/
theorem c3_first_interval_ge_witness :
    (CatalogueWF c2Cat ∧ 1 ≤ (1 : Nat) ∧ (1 : Nat) ≤ c2Cat.length ∧
     (1 : Nat) ≤ (chosenFormat c2Cat ⟨1, 1, 666666⟩).frames.length) ∧
    (((∃ iv ∈ (chosenFrame c2Cat ⟨1, 1, 666666⟩).intervals, (666666 : Nat) ≤ iv) →
      ∃ k, k < (chosenFrame c2Cat ⟨1, 1, 666666⟩).intervals.length ∧
        (setStreamingControl c2Cat zeroStreamingControl ⟨1, 1, 666666⟩).dwFrameInterval =
          (chosenFrame c2Cat ⟨1, 1, 666666⟩).intervals.getD k 0 ∧
        (666666 : Nat) ≤
          (setStreamingControl c2Cat zeroStreamingControl ⟨1, 1, 666666⟩).dwFrameInterval ∧
        (∀ j, j < k →
          (chosenFrame c2Cat ⟨1, 1, 666666⟩).intervals.getD j 0 < 666666)) ∧
    ((∀ iv ∈ (chosenFrame c2Cat ⟨1, 1, 666666⟩).intervals, iv < 666666) →
      (setStreamingControl c2Cat zeroStreamingControl ⟨1, 1, 666666⟩).dwFrameInterval =
        (chosenFrame c2Cat ⟨1, 1, 666666⟩).intervals.getD
          ((chosenFrame c2Cat ⟨1, 1, 666666⟩).intervals.length - 1) 0 ∧
      (∀ iv ∈ (chosenFrame c2Cat ⟨1, 1, 666666⟩).intervals,
        iv ≤ (setStreamingControl c2Cat zeroStreamingControl
          ⟨1, 1, 666666⟩).dwFrameInterval)) ∧
    ((666666 : Nat) ∈ (chosenFrame c2Cat ⟨1, 1, 666666⟩).intervals →
      (setStreamingControl c2Cat zeroStreamingControl ⟨1, 1, 666666⟩).dwFrameInterval =
        666666)) :=
  ⟨⟨by unfold CatalogueWF; decide, by decide, by decide, by decide⟩,
   c3_first_interval_ge c2Cat ⟨1, 1, 666666⟩ (by unfold CatalogueWF; decide)
     (by decide) (by decide) (by decide) (by decide)⟩

/-- C8: negotiation is idempotent.  For an in-range 1-based triplet over a
well-formed catalogue, extracting `(bFormatIndex, bFrameIndex,
dwFrameInterval)` from the negotiated structure and negotiating again
yields the identical structure, hence the identical 48-byte wire image. -/
theorem c8_negotiation_idempotent (formats : List ConfigFormat) (t : FormatTriplet)
    (hwf : CatalogueWF formats)
    (hf1 : 1 ≤ t.formatIndex) (hf2 : t.formatIndex ≤ formats.length)
    (hr1 : 1 ≤ t.frameSizeIndex)
    (hr2 : t.frameSizeIndex ≤ (chosenFormat formats t).frames.length) :
    setStreamingControl formats zeroStreamingControl
      ⟨(setStreamingControl formats zeroStreamingControl t).bFormatIndex,
       (setStreamingControl formats zeroStreamingControl t).bFrameIndex,
       (setStreamingControl formats zeroStreamingControl t).dwFrameInterval⟩ =
      setStreamingControl formats zeroStreamingControl t ∧
    serializeStreamingControl
      (setStreamingControl formats zeroStreamingControl
        ⟨(setStreamingControl formats zeroStreamingControl t).bFormatIndex,
         (setStreamingControl formats zeroStreamingControl t).bFrameIndex,
         (setStreamingControl formats zeroStreamingControl t).dwFrameInterval⟩) =
      serializeStreamingControl (setStreamingControl formats zeroStreamingControl t) := by
  obtain ⟨h1, h2, hivne, hivsorted, hivlt⟩ :=
    catalogue_chosen_facts formats t hwf hf1 hr1
  have hf := setStreamingControl_fields formats zeroStreamingControl t h1 h2
  have hcfi : chosenFormatIndex formats t = t.formatIndex := by
    unfold chosenFormatIndex
    rw [if_neg (by omega)]
  have hcfr : chosenFrameIndex formats t = t.frameSizeIndex := by
    unfold chosenFrameIndex
    rw [if_neg (by omega)]
  have ht2eq : (⟨(setStreamingControl formats zeroStreamingControl t).bFormatIndex,
      (setStreamingControl formats zeroStreamingControl t).bFrameIndex,
      (setStreamingControl formats zeroStreamingControl t).dwFrameInterval⟩ :
        FormatTriplet) =
      ⟨t.formatIndex, t.frameSizeIndex, negotiatedInterval formats t⟩ := by
    rw [hf.1, hf.2.1, hf.2.2, hcfi, hcfr]
  have e1 : chosenFormatIndex formats
      ⟨t.formatIndex, t.frameSizeIndex, negotiatedInterval formats t⟩ =
      chosenFormatIndex formats t := rfl
  have e2 : chosenFormat formats
      ⟨t.formatIndex, t.frameSizeIndex, negotiatedInterval formats t⟩ =
      chosenFormat formats t := rfl
  have e3 : chosenFrameIndex formats
      ⟨t.formatIndex, t.frameSizeIndex, negotiatedInterval formats t⟩ =
      chosenFrameIndex formats t := rfl
  have e4 : chosenFrame formats
      ⟨t.formatIndex, t.frameSizeIndex, negotiatedInterval formats t⟩ =
      chosenFrame formats t := rfl
  have e5 : negotiatedInterval formats
      ⟨t.formatIndex, t.frameSizeIndex, negotiatedInterval formats t⟩ =
      negotiatedInterval formats t := by
    unfold negotiatedInterval
    exact negotiatedInterval_fix (chosenFrame formats t).intervals t.frameInterval
      hivne hivsorted
  have hmain : setStreamingControl formats zeroStreamingControl
      ⟨t.formatIndex, t.frameSizeIndex, negotiatedInterval formats t⟩ =
      setStreamingControl formats zeroStreamingControl t := by
    rw [setStreamingControl_complete formats zeroStreamingControl
          ⟨t.formatIndex, t.frameSizeIndex, negotiatedInterval formats t⟩
          (by rw [e1]; exact h1) (by rw [e3]; exact h2),
        setStreamingControl_complete formats zeroStreamingControl t h1 h2,
        e1, e2, e3, e4, e5]
  rw [ht2eq]
  exact ⟨hmain, by rw [hmain]⟩

/-- C8 witness: idempotence at the concrete catalogue with the triplet
`(2, 1, 500000)`, whose interval is not listed exactly. -/
theorem c8_negotiation_idempotent_witness :
    (CatalogueWF c2Cat ∧ 1 ≤ (2 : Nat) ∧ (2 : Nat) ≤ c2Cat.length ∧
     (1 : Nat) ≤ (chosenFormat c2Cat ⟨2, 1, 500000⟩).frames.length) ∧
    (setStreamingControl c2Cat zeroStreamingControl
      ⟨(setStreamingControl c2Cat zeroStreamingControl ⟨2, 1, 500000⟩).bFormatIndex,
       (setStreamingControl c2Cat zeroStreamingControl ⟨2, 1, 500000⟩).bFrameIndex,
       (setStreamingControl c2Cat zeroStreamingControl ⟨2, 1, 500000⟩).dwFrameInterval⟩ =
      setStreamingControl c2Cat zeroStreamingControl ⟨2, 1, 500000⟩ ∧
    serializeStreamingControl
      (setStreamingControl c2Cat zeroStreamingControl
        ⟨(setStreamingControl c2Cat zeroStreamingControl ⟨2, 1, 500000⟩).bFormatIndex,
         (setStreamingControl c2Cat zeroStreamingControl ⟨2, 1, 500000⟩).bFrameIndex,
         (setStreamingControl c2Cat zeroStreamingControl
           ⟨2, 1, 500000⟩).dwFrameInterval⟩) =
      serializeStreamingControl
        (setStreamingControl c2Cat zeroStreamingControl ⟨2, 1, 500000⟩)) :=
  ⟨⟨by unfold CatalogueWF; decide, by decide, by decide, by decide⟩,
   c8_negotiation_idempotent c2Cat ⟨2, 1, 500000⟩ (by unfold CatalogueWF; decide)
     (by decide) (by decide) (by decide) (by decide)⟩

end DeviceAsWebcam
